import Mathlib

/-!
Shallow embedding of the RAS-VTS SmartFleet ring-auction protocol:
the relay fabric (`src/src/agents/mesh_simulator.py`, class `MeshSimulator`)
and the vehicle agent (`src/src/agents/vehicle_agent.py`, class `VehicleAgent`).

Python dictionaries carrying messages are modelled as a record of optional
fields (`Msg`): a missing key is `none`, and each `dict.get(key, default)`
in the source becomes `Option.getD`.  Python floats are modelled as `ℚ`.
A value passed to `send` that is not a dict at all is modelled as `none`
at type `Option Msg`.  Python truthiness of an optional string
(`if not winner`, `if not next_agent`) is `truthyStr`.
-/

namespace VTS

/-- Constant `VERY_HIGH_BID = 9999999999.0`, the infeasibility sentinel shared by
`MeshSimulator` and `VehicleAgent`. -/
def VERY_HIGH_BID : ℚ := 9999999999

/-- The `best` sub-dictionary `{"bid": float, "holder": Optional[str]}`. -/
structure Best where
  bid : ℚ
  holder : Option String
deriving Repr, DecidableEq

/-- A message dictionary.  Every field the source ever reads is optional,
mirroring `msg.get(...)` access on a Python dict. -/
structure Msg where
  message_type : Option String := none
  task_id : Option String := none
  pickup : Option String := none
  delivery : Option String := none
  weight : Option ℚ := none
  due_by : Option ℚ := none
  path : Option (List String) := none
  best : Option Best := none
  winner : Option String := none
  backtrace_route : Option (List String) := none
deriving Repr, DecidableEq

/-- Python truthiness of an optional string: `None` and `""` are falsy. -/
def truthyStr : Option String → Bool
  | none => false
  | some s => !(s == "")

/-- The `task_info` dict built for `compute_bid`. -/
structure TaskInfo where
  task_id : Option String := none
  pickup : Option String := none
  delivery : Option String := none
  weight : Option ℚ := none
  due_by : Option ℚ := none
deriving Repr, DecidableEq

/-- The `network_info` dict passed to `compute_bid`. -/
structure NetworkInfo where
  current_edge : Option String := none
  current_time : Option ℚ := none
deriving Repr, DecidableEq

/-- Mutable state of one `VehicleAgent` (the fields the protocol touches). -/
structure AgentState where
  id : String
  capacity : ℚ := 10
  load : ℚ := 0
  battery : ℚ := 100
  inbox : List Msg := []
  assigned_tasks : List (String × String) := []
  completed_tasks : Nat := 0
deriving Repr, DecidableEq

/-- Mutable state of the `MeshSimulator` fabric.  `agents` is the Python
dict `self.agents` as an insertion-ordered association list. -/
structure MeshState where
  agents : List (String × AgentState)
  ring : List String
  message_queue : List (String × Msg × Option ℚ) := []
  sod_assign_index : Nat := 0
  comm_range : ℚ := 600
deriving Repr, DecidableEq

/-- Dict lookup `self.agents[k]` / membership `k in self.agents`
(first matching key, as in a Python dict without duplicate keys). -/
def lookupAgent : List (String × AgentState) → String → Option AgentState
  | [], _ => none
  | p :: rest, k => if p.1 == k then some p.2 else lookupAgent rest k

/-- Point update of the agents dict at key `k`. -/
def updateAgent (ags : List (String × AgentState)) (k : String)
    (f : AgentState → AgentState) : List (String × AgentState) :=
  ags.map (fun p => if p.1 == k then (p.1, f p.2) else p)

namespace VehicleAgent

/-- Embeds `VehicleAgent.receive`: buffer a message iff it is a dict carrying a
`"message_type"` key. -/
def receive (a : AgentState) (m : Msg) : AgentState :=
  if m.message_type.isSome then { a with inbox := a.inbox ++ [m] } else a

/-- Embeds `VehicleAgent.has_capacity`. -/
def has_capacity (a : AgentState) (task_weight : ℚ) : Bool :=
  a.load + task_weight ≤ a.capacity

/-- Embeds `VehicleAgent._calculate_base_cost`: the source's placeholder returns
the constant `100.0` regardless of edges. -/
def calculate_base_cost (current_edge delivery_edge : String) : ℚ := 100

/-- Embeds `VehicleAgent._calculate_priority_multiplier`. -/
def calculate_priority_multiplier (weight : ℚ) : ℚ :=
  if weight ≥ 5 then 1/2
  else if weight ≥ 2 then 1
  else 3/2

/-- Embeds `VehicleAgent._calculate_capacity_penalty`. -/
def calculate_capacity_penalty (a : AgentState) : ℚ :=
  if a.capacity ≤ 0 then 1
  else 1 + (a.load / a.capacity) * 2

/-- Embeds `VehicleAgent._calculate_time_penalty`. -/
def calculate_time_penalty (task_info : TaskInfo) (base_cost current_time : ℚ) : ℚ :=
  match task_info.due_by with
  | none => 1
  | some deadline =>
    let travel_time_estimate := base_cost / 10
    let estimated_completion := current_time + travel_time_estimate
    let time_remaining := deadline - estimated_completion
    if time_remaining ≤ 0 then 3 * 2
    else if time_remaining ≤ 100 then 3
    else if time_remaining ≤ 300 then 3/2
    else 1

/-- Embeds `VehicleAgent.compute_bid`. -/
def compute_bid (a : AgentState) (task_info : TaskInfo) (network_info : NetworkInfo) : ℚ :=
  let weight := task_info.weight.getD 0
  if !(has_capacity a weight) then VERY_HIGH_BID
  else
    let current_edge := network_info.current_edge.getD "warehouse"
    let base_cost := calculate_base_cost current_edge (task_info.delivery.getD "")
    if base_cost ≥ VERY_HIGH_BID then VERY_HIGH_BID
    else
      let priority_mult := calculate_priority_multiplier weight
      let capacity_penalty := calculate_capacity_penalty a
      let time_penalty := calculate_time_penalty task_info base_cost
        (network_info.current_time.getD 0)
      min (base_cost * priority_mult * capacity_penalty * time_penalty) VERY_HIGH_BID

/-- The bid computed inside `VehicleAgent._handle_forward_announcement`:
`compute_bid` on the task dict rebuilt from the message (note the handler
passes no `due_by` and no `current_edge`). -/
def forward_bid (a : AgentState) (msg : Msg) (current_time : ℚ) : ℚ :=
  compute_bid a
    { task_id := some (msg.task_id.getD ""), pickup := some (msg.pickup.getD ""),
      delivery := some (msg.delivery.getD ""), weight := some (msg.weight.getD 0) }
    { current_time := some current_time }

/-- The `forward_msg` dict built by `VehicleAgent._handle_forward_announcement`
(the handler's whole visible effect is `mesh.send(self.id, forward_msg, t)`). -/
def handle_forward_announcement (a : AgentState) (msg : Msg) (current_time : ℚ) : Msg :=
  let task_id := msg.task_id.getD ""
  let pickup := msg.pickup.getD ""
  let delivery := msg.delivery.getD ""
  let weight := msg.weight.getD 0
  let path := msg.path.getD []
  let bid := forward_bid a msg current_time
  let best := msg.best.getD { bid := VERY_HIGH_BID, holder := none }
  let current_best := best.bid
  let best1 := if bid < current_best then { bid := bid, holder := some a.id } else best
  let path1 := if path.contains a.id then path else path ++ [a.id]
  { message_type := some "FORWARD_ANNOUNCEMENT", task_id := some task_id,
    pickup := some pickup, delivery := some delivery, weight := some weight,
    path := some path1, best := some best1 }

/-- Embeds `VehicleAgent._handle_winner_decision`. -/
def handle_winner_decision (a : AgentState) (msg : Msg) : AgentState :=
  let winner := msg.winner.getD ""
  let task_id := msg.task_id.getD ""
  let delivery := msg.delivery.getD ""
  if winner == a.id then
    if a.assigned_tasks.any (fun t => t.1 == task_id) then a
    else { a with assigned_tasks := a.assigned_tasks ++ [(task_id, delivery)] }
  else a

end VehicleAgent

namespace MeshSimulator

/-- Embeds `MeshSimulator.send`: argument `none` models a non-dict value; a dict
without a `"message_type"` key is dropped; anything else is enqueued at
the tail (deep copy is the identity under value semantics). -/
def send (st : MeshState) (sender_id : String) (message : Option Msg)
    (sim_time : Option ℚ) : MeshState :=
  match message with
  | none => st
  | some m =>
    if m.message_type.isNone then st
    else { st with message_queue := st.message_queue ++ [(sender_id, m, sim_time)] }

/-- Embeds the delivery idiom `self.agents[k].receive(m)` guarded by `k in self.agents`. -/
def deliverTo (st : MeshState) (k : String) (m : Msg) : MeshState :=
  if (lookupAgent st.agents k).isSome then
    { st with agents := updateAgent st.agents k (fun a => VehicleAgent.receive a m) }
  else st

/-- Embeds `MeshSimulator._assign_sod_task`: round-robin pre-assignment. -/
def assign_sod_task (st : MeshState) (msg : Msg) : MeshState :=
  match st.ring with
  | [] => st
  | _ :: _ =>
    let winner := st.ring.getD (st.sod_assign_index % st.ring.length) ""
    let st1 := { st with sod_assign_index := st.sod_assign_index + 1 }
    let winner_msg : Msg :=
      { message_type := some "WINNER_DECISION", task_id := msg.task_id,
        winner := some winner, pickup := msg.pickup, delivery := msg.delivery,
        weight := msg.weight, best := some { bid := 0, holder := some winner } }
    deliverTo st1 winner winner_msg

/-- The seed `forward_msg` dict built by `MeshSimulator._forward_to_ring`:
path `["warehouse", first_agent]`, best `{bid: VERY_HIGH_BID, holder: None}`. -/
def seed_forward_msg (msg : Msg) (first_agent : String) : Msg :=
  { message_type := some "FORWARD_ANNOUNCEMENT", task_id := some (msg.task_id.getD ""),
    pickup := some (msg.pickup.getD ""), delivery := some (msg.delivery.getD ""),
    weight := some (msg.weight.getD 0),
    path := some (["warehouse"] ++ [first_agent]),
    best := some { bid := VERY_HIGH_BID, holder := none } }

/-- Embeds `MeshSimulator._forward_to_ring`: seed the ring traversal. -/
def forward_to_ring (st : MeshState) (msg : Msg) : MeshState :=
  match st.ring with
  | [] => st
  | first_agent :: _ => deliverTo st first_agent (seed_forward_msg msg first_agent)

/-- Embeds Python `str.startswith(pre)` as a character-list prefix test
(extensionally equal to `String.startsWith`, which is not kernel-computable
because its loop uses well-founded recursion). -/
def startsWithPy (s pre : String) : Bool := pre.data.isPrefixOf s.data

/-- Embeds `MeshSimulator._handle_warehouse_announcement`. -/
def handle_warehouse_announcement (st : MeshState) (msg : Msg) : MeshState :=
  let task_id := msg.task_id.getD ""
  if startsWithPy task_id "SOD-" then assign_sod_task st msg
  else forward_to_ring st msg

/-- The circular scan of `_find_next_in_ring` over offsets `1..len(ring)`. -/
def scanRing (ring path : List String) (idx : Nat) : List Nat → Option String
  | [] => none
  | offset :: rest =>
    let candidate := ring.getD ((idx + offset) % ring.length) ""
    if path.contains candidate then scanRing ring path idx rest
    else some candidate

/-- Embeds `MeshSimulator._find_next_in_ring`. -/
def find_next_in_ring (ring : List String) (current : String) (path : List String) :
    Option String :=
  if current == "warehouse" then
    ring.find? (fun ag => !(path.contains ag))
  else if !(ring.contains current) then none
  else
    let idx := ring.indexOf current
    scanRing ring path idx (List.range' 1 ring.length)

/-- The `backtrace_path` computed by `_start_backtrace` (source lines 196-200):
the reverse of the path suffix starting at the winner's first occurrence,
falling back to `[winner]` when the winner is absent from the path. -/
def backtrace_route_of (path : List String) (winner : String) : List String :=
  if path.contains winner then (path.drop (path.indexOf winner)).reverse
  else [winner]

/-- The hop-by-hop delivery loop at the end of `_start_backtrace`:
`for i in range(len(bp)-1)` delivers to each of `bp[1:]` in order. -/
def deliverAlong (st : MeshState) (receivers : List String) (m : Msg) : MeshState :=
  receivers.foldl (fun s r => deliverTo s r m) st

/-- Embeds `MeshSimulator._start_backtrace`. -/
def start_backtrace (st : MeshState) (msg : Msg) : MeshState :=
  let best := msg.best.getD { bid := VERY_HIGH_BID, holder := none }
  let winnerOpt := best.holder
  if !(truthyStr winnerOpt) then st
  else
    let winner := winnerOpt.getD ""
    let path := msg.path.getD []
    let backtrace_path := backtrace_route_of path winner
    let winner_msg : Msg :=
      { message_type := some "WINNER_DECISION", task_id := msg.task_id,
        winner := some winner, pickup := msg.pickup, delivery := msg.delivery,
        weight := msg.weight, best := some best,
        backtrace_route := some backtrace_path }
    deliverAlong st backtrace_path.tail winner_msg

/-- Embeds `MeshSimulator._handle_forward_announcement` (fabric side). -/
def handle_forward_announcement (st : MeshState) (sender : String) (msg : Msg) :
    MeshState :=
  let path := msg.path.getD []
  match path.getLast? with
  | none => st
  | some last_agent =>
    let next := find_next_in_ring st.ring last_agent path
    if !(truthyStr next) then start_backtrace st msg
    else
      let next_agent := next.getD ""
      let forward_msg := { msg with path := some (path ++ [next_agent]) }
      deliverTo st next_agent forward_msg

/-- Embeds `MeshSimulator._handle_winner_decision`: direct delivery to the winner. -/
def handle_winner_decision (st : MeshState) (msg : Msg) : MeshState :=
  let winner := msg.winner.getD ""
  deliverTo st winner msg

/-- Embeds `MeshSimulator._process_message`: dispatch on `message_type`, with the
task-announcement branch additionally requiring `sender == "warehouse"`. -/
def process_message (st : MeshState) (sender : String) (msg : Msg)
    (current_time : ℚ) : MeshState :=
  if msg.message_type = some "TASK_ANNOUNCEMENT" ∧ sender = "warehouse" then
    handle_warehouse_announcement st msg
  else if msg.message_type = some "FORWARD_ANNOUNCEMENT" then
    handle_forward_announcement st sender msg
  else if msg.message_type = some "WINNER_DECISION" then
    handle_winner_decision st msg
  else st

end MeshSimulator

/-!
Spec-side formulas and observation functions.  The `spec...` definitions
are written from the specification's own words, to be compared with the
code-derived definitions above.
-/

/-- Priority multiplier as the spec words it: `weight ≥ 5.0 → 0.5`,
`2.0 ≤ weight < 5.0 → 1.0`, `weight < 2.0 → 1.5`. -/
def specPriorityMult (weight : ℚ) : ℚ :=
  if weight ≥ 5 then 1/2
  else if 2 ≤ weight ∧ weight < 5 then 1
  else 3/2

/-- Capacity penalty as the spec words it: `1.0` if `capacity ≤ 0`,
else `1.0 + 2.0 * (load / capacity)`. -/
def specCapacityPenalty (capacity load : ℚ) : ℚ :=
  if capacity ≤ 0 then 1 else 1 + 2 * (load / capacity)

/-- Time-window penalty as the spec words it, with
`slack = due_by − (current_time + base_cost / 10.0)`. -/
def specTimePenalty (due_by : Option ℚ) (current_time base_cost : ℚ) : ℚ :=
  match due_by with
  | none => 1
  | some d =>
    let slack := d - (current_time + base_cost / 10)
    if slack ≤ 0 then 6
    else if slack ≤ 100 then 3
    else if slack ≤ 300 then 3/2
    else 1

/-- Recognition predicate for the three message variants the spec lists. -/
def recognizedVariant (m : Msg) : Prop :=
  m.message_type = some "TASK_ANNOUNCEMENT" ∨
  m.message_type = some "FORWARD_ANNOUNCEMENT" ∨
  m.message_type = some "WINNER_DECISION"

instance (m : Msg) : Decidable (recognizedVariant m) := by
  unfold recognizedVariant
  exact inferInstance

/-- Observation: how many `WINNER_DECISION` messages sit in agent `g`'s inbox. -/
def countWD (st : MeshState) (g : String) : Nat :=
  match lookupAgent st.agents g with
  | none => 0
  | some a => (a.inbox.filter (fun m => m.message_type == some "WINNER_DECISION")).length

/-- Well-formedness of a traversal path: no duplicates, and every entry is
either the warehouse sentinel or a ring member. -/
def pathOK (ring path : List String) : Prop :=
  path.Nodup ∧ ∀ x ∈ path, x = "warehouse" ∨ x ∈ ring

/-- Invariant of an in-flight `ForwardAnnouncement`: its path is well formed
and any recorded holder is a ring member. -/
def ForwardInv (ring : List String) (m : Msg) : Prop :=
  pathOK ring (m.path.getD []) ∧
  ∀ w, (m.best.getD { bid := VERY_HIGH_BID, holder := none }).holder = some w → w ∈ ring

/-- Uniqueness of `assigned_tasks` entries by `task_id`. -/
def keysUnique (l : List (String × String)) : Prop := (l.map Prod.fst).Nodup

/-- Example fleet used for the concrete evaluations: two vehicles. -/
def agentA : AgentState := { id := "A" }

/-- Example vehicle `B`, carrying some load already. -/
def agentB : AgentState := { id := "B", load := 2 }

/-- Example fabric with ring `[A, B]` and round-robin index `1`. -/
def meshAB : MeshState :=
  { agents := [("A", agentA), ("B", agentB)], ring := ["A", "B"], sod_assign_index := 1 }

/-- Example fabric with a one-vehicle ring. -/
def meshA : MeshState := { agents := [("A", agentA)], ring := ["A"] }

/-!
Helper lemmas about the dictionary of agents and delivery counting.
-/

theorem lookupAgent_updateAgent (ags : List (String × AgentState)) (k g : String)
    (f : AgentState → AgentState) :
    lookupAgent (updateAgent ags k f) g =
      if g = k then (lookupAgent ags g).map f else lookupAgent ags g := by
  induction ags with
  | nil => simp [lookupAgent, updateAgent]
  | cons p rest ih =>
    simp only [updateAgent, List.map_cons, beq_iff_eq] at ih ⊢
    by_cases hpk : p.1 = k
    · by_cases hpg : p.1 = g
      · have hgk : g = k := hpg ▸ hpk
        simp [lookupAgent, hpk, hpg, hgk, beq_iff_eq]
      · have hkg : ¬k = g := fun h => hpg (hpk.trans h)
        have hgk : ¬g = k := fun h => hkg h.symm
        simp [lookupAgent, hpk, hkg, hgk, beq_iff_eq, ih]
    · by_cases hpg : p.1 = g
      · have hgk : ¬g = k := fun h => hpk (hpg.trans h)
        simp [lookupAgent, hpk, hpg, hgk, beq_iff_eq]
      · simp only [lookupAgent, beq_iff_eq, if_neg hpk, if_neg hpg]
        exact ih

theorem lookupAgent_deliverTo_isSome (st : MeshState) (k g : String) (m : Msg) :
    (lookupAgent (MeshSimulator.deliverTo st k m).agents g).isSome =
      (lookupAgent st.agents g).isSome := by
  unfold MeshSimulator.deliverTo
  split
  · simp only [lookupAgent_updateAgent]
    split <;> simp
  · rfl

theorem countWD_deliverTo (st : MeshState) (k g : String) (m : Msg) :
    countWD (MeshSimulator.deliverTo st k m) g =
      countWD st g +
        (if g = k ∧ (lookupAgent st.agents k).isSome = true ∧
            m.message_type = some "WINNER_DECISION" then 1 else 0) := by
  unfold MeshSimulator.deliverTo
  by_cases hk : (lookupAgent st.agents k).isSome = true
  · rw [if_pos hk]
    unfold countWD
    simp only [lookupAgent_updateAgent]
    by_cases hg : g = k
    · subst hg
      rw [if_pos rfl]
      obtain ⟨a, ha⟩ := Option.isSome_iff_exists.mp hk
      rw [ha]
      simp only [Option.map_some']
      unfold VehicleAgent.receive
      by_cases hm : m.message_type = some "WINNER_DECISION"
      · simp [hm, List.filter_append]
      · by_cases hms : m.message_type.isSome = true
        · simp only [hms, if_true]
          simp [List.filter_append, hm]
        · simp [hms, hm]
    · simp [hg]
  · rw [if_neg hk]
    simp [hk]

theorem countWD_deliverAlong (rs : List String) (st : MeshState) (m : Msg) (g : String)
    (hm : m.message_type = some "WINNER_DECISION")
    (hg : (lookupAgent st.agents g).isSome = true) :
    countWD (MeshSimulator.deliverAlong st rs m) g = countWD st g + rs.count g := by
  induction rs generalizing st with
  | nil => simp [MeshSimulator.deliverAlong]
  | cons r rs ih =>
    have hg' : (lookupAgent (MeshSimulator.deliverTo st r m).agents g).isSome = true := by
      rw [lookupAgent_deliverTo_isSome]; exact hg
    have step := countWD_deliverTo st r g m
    simp only [MeshSimulator.deliverAlong, List.foldl_cons] at ih ⊢
    rw [ih (MeshSimulator.deliverTo st r m) hg', step, List.count_cons]
    by_cases hgr : g = r
    · subst hgr
      simp [hg, hm]
      omega
    · simp [hgr, beq_iff_eq]
      intro h
      exact absurd h.symm hgr

theorem contains_eq_true_iff (l : List String) (a : String) :
    l.contains a = true ↔ a ∈ l := by
  simp only [List.contains_eq_any_beq, List.any_eq_true, beq_iff_eq]
  exact ⟨fun ⟨x, hx, he⟩ => he ▸ hx, fun h => ⟨a, h, rfl⟩⟩

theorem getLast?_drop_of_lt {α : Type} (l : List α) (n : Nat) (h : n < l.length) :
    (l.drop n).getLast? = l.getLast? := by
  conv_rhs => rw [← List.take_append_drop n l]
  rw [List.getLast?_append]
  have hne : l.drop n ≠ [] := by
    intro he
    have : l.length ≤ n := by
      have := congrArg List.length he
      simp [List.length_drop] at this
      omega
    omega
  cases hlast : (l.drop n).getLast? with
  | none => exact absurd (List.getLast?_eq_none_iff.mp hlast) hne
  | some x => rfl

theorem priority_mult_eq_spec (w : ℚ) :
    VehicleAgent.calculate_priority_multiplier w = specPriorityMult w := by
  unfold VehicleAgent.calculate_priority_multiplier specPriorityMult
  by_cases h5 : w ≥ 5
  · simp [h5]
  · by_cases h2 : w ≥ 2
    · have hc : 2 ≤ w ∧ w < 5 := ⟨h2, lt_of_not_ge h5⟩
      simp [h5, h2, hc]
    · have hc : ¬(2 ≤ w ∧ w < 5) := fun hc => h2 hc.1
      simp [h5, h2, hc]

theorem capacity_penalty_eq_spec (a : AgentState) :
    VehicleAgent.calculate_capacity_penalty a = specCapacityPenalty a.capacity a.load := by
  unfold VehicleAgent.calculate_capacity_penalty specCapacityPenalty
  split
  · rfl
  · ring

theorem time_penalty_eq_spec (ti : TaskInfo) (base ct : ℚ) :
    VehicleAgent.calculate_time_penalty ti base ct = specTimePenalty ti.due_by ct base := by
  unfold VehicleAgent.calculate_time_penalty specTimePenalty
  cases ti.due_by with
  | none => rfl
  | some d => norm_num

theorem compute_bid_infeasible (a : AgentState) (ti : TaskInfo) (ni : NetworkInfo)
    (hinf : a.capacity < a.load + ti.weight.getD 0) :
    VehicleAgent.compute_bid a ti ni = VERY_HIGH_BID := by
  unfold VehicleAgent.compute_bid
  have hgate : VehicleAgent.has_capacity a (ti.weight.getD 0) = false := by
    simp only [VehicleAgent.has_capacity, decide_eq_false_iff_not, not_le]
    exact hinf
  simp [hgate]

theorem filter_key_length_of_unique (l : List (String × String)) (k : String)
    (hu : keysUnique l) (hany : l.any (fun p => p.1 == k) = true) :
    (l.filter (fun p => p.1 == k)).length = 1 := by
  have hlen : (l.filter (fun p => p.1 == k)).length = (l.map Prod.fst).count k := by
    rw [List.count, List.countP_map, List.countP_eq_length_filter]
    rfl
  have hle : (l.map Prod.fst).count k ≤ 1 :=
    List.nodup_iff_count_le_one.mp hu k
  obtain ⟨p, hp, hpk⟩ := List.any_eq_true.mp hany
  have hkmem : k ∈ l.map Prod.fst :=
    List.mem_map.mpr ⟨p, hp, beq_iff_eq.mp hpk⟩
  have hpos : 0 < (l.map Prod.fst).count k := List.count_pos_iff_mem.mpr hkmem
  omega

/-!
Claim theorems.
-/

/-- C10: a queued `TASK_ANNOUNCEMENT` whose recorded sender is any string
other than the literal `"warehouse"` is silently ignored at dispatch — the
whole fabric state (ring, every inbox, queue, SOD index) is returned
unchanged, so no ring traversal is seeded. -/
theorem C10_task_announcement_requires_warehouse_sender
    (st : MeshState) (sender : String) (msg : Msg) (t : ℚ)
    (hmt : msg.message_type = some "TASK_ANNOUNCEMENT")
    (hs : sender ≠ "warehouse") :
    MeshSimulator.process_message st sender msg t = st := by
  unfold MeshSimulator.process_message
  have h1 : ("TASK_ANNOUNCEMENT" : String) ≠ "FORWARD_ANNOUNCEMENT" := by decide
  have h2 : ("TASK_ANNOUNCEMENT" : String) ≠ "WINNER_DECISION" := by decide
  simp [hmt, hs, h1, h2]

/-- Witness for C10: the example fabric, a `TASK_ANNOUNCEMENT` recorded as
sent by agent `"A"`, left untouched by dispatch. -/
theorem C10_witness :
    ({ message_type := some "TASK_ANNOUNCEMENT", task_id := some "T9" } : Msg).message_type
        = some "TASK_ANNOUNCEMENT" ∧
    ("A" : String) ≠ "warehouse" ∧
    MeshSimulator.process_message meshAB "A"
      { message_type := some "TASK_ANNOUNCEMENT", task_id := some "T9" } 0 = meshAB :=
  ⟨rfl, by decide,
    C10_task_announcement_requires_warehouse_sender meshAB "A" _ 0 rfl (by decide)⟩

/-- Unrecognized-variant message used to refute C3. -/
def bogusMsg : Msg := { message_type := some "BOGUS" }

/-- C3 counterexample: a dict whose `message_type` is the unrecognized
string `"BOGUS"` is NOT dropped by `send`; it is appended to the FIFO
queue, so malformed/unrecognized messages do enter the queue. -/
theorem C3_cex_unrecognized_enqueued :
    ¬ recognizedVariant bogusMsg ∧
    MeshSimulator.send meshAB "A" (some bogusMsg) none =
      { meshAB with message_queue := meshAB.message_queue ++ [("A", bogusMsg, none)] } := by
  refine ⟨by decide, rfl⟩

/-- C3 amended: `send` drops exactly the values that are not dicts and the
dicts lacking a `"message_type"` key; every dict carrying a `"message_type"`
key — whatever its value, and with any or no further fields — is enqueued
at the tail of the FIFO queue.  Variant recognition and required-field
validation play no part at the send boundary. -/
theorem C3_send_gate (st : MeshState) (sender : String) (t : Option ℚ) :
    MeshSimulator.send st sender none t = st ∧
    (∀ m : Msg, m.message_type = none → MeshSimulator.send st sender (some m) t = st) ∧
    (∀ m : Msg, m.message_type ≠ none →
      MeshSimulator.send st sender (some m) t =
        { st with message_queue := st.message_queue ++ [(sender, m, t)] }) := by
  refine ⟨rfl, ?_, ?_⟩
  · intro m hm
    unfold MeshSimulator.send
    simp [hm]
  · intro m hm
    unfold MeshSimulator.send
    have : m.message_type.isNone = false := by
      cases h : m.message_type with
      | none => exact absurd h hm
      | some s => rfl
    simp [this]

/-- Witness for C3 amended: a `FORWARD_ANNOUNCEMENT` dict with every other
required field missing is still enqueued. -/
theorem C3_send_gate_witness :
    ({ message_type := some "FORWARD_ANNOUNCEMENT" } : Msg).message_type ≠ none ∧
    MeshSimulator.send meshAB "A" (some { message_type := some "FORWARD_ANNOUNCEMENT" }) none =
      { meshAB with message_queue := meshAB.message_queue ++
          [("A", { message_type := some "FORWARD_ANNOUNCEMENT" }, none)] } :=
  ⟨by decide, (C3_send_gate meshAB "A" none).2.2 _ (by decide)⟩

/-- C2 counterexample: for `path = [warehouse, A, B, C]` and holder `B`, the
code's constructed backtrace route is `[C, B]`, not the `[B, A]` the claim
states — the route runs from the end of the path back to the holder, not
from the holder toward the front. -/
theorem C2_cex_backtrace_route :
    MeshSimulator.backtrace_route_of ["warehouse", "A", "B", "C"] "B" = ["C", "B"] ∧
    MeshSimulator.backtrace_route_of ["warehouse", "A", "B", "C"] "B" ≠ ["B", "A"] := by
  exact ⟨rfl, by decide⟩

/-- C2 amended: when the holder occurs in the path, `backtrace_route` is the
reverse of the path suffix from the holder's first position to the END of
the path — it starts at the path's last entry and ends at the holder
(so for `[warehouse, A, B, C]` with holder `B` it is `[C, B]`); when the
holder is absent from the path the route falls back to `[holder]`. -/
theorem C2_backtrace_route_shape (path : List String) (w : String) :
    (w ∈ path →
      MeshSimulator.backtrace_route_of path w = (path.drop (path.indexOf w)).reverse ∧
      (MeshSimulator.backtrace_route_of path w).getLast? = some w ∧
      (MeshSimulator.backtrace_route_of path w).head? = path.getLast?) ∧
    (w ∉ path → MeshSimulator.backtrace_route_of path w = [w]) := by
  constructor
  · intro hmem
    have hc : path.contains w = true := (contains_eq_true_iff path w).2 hmem
    have hidx : path.indexOf w < path.length := List.indexOf_lt_length.2 hmem
    unfold MeshSimulator.backtrace_route_of
    rw [if_pos hc]
    refine ⟨rfl, ?_, ?_⟩
    · rw [List.getLast?_reverse]
      rw [List.drop_eq_getElem_cons hidx]
      simp [List.getElem_indexOf hidx]
    · rw [List.head?_reverse]
      exact getLast?_drop_of_lt path (path.indexOf w) hidx
  · intro hmem
    have hc : path.contains w = false := by
      cases h : path.contains w with
      | false => rfl
      | true => exact absurd ((contains_eq_true_iff path w).1 h) hmem
    unfold MeshSimulator.backtrace_route_of
    rw [hc]
    rfl

/-- Witness for C2 amended, at the spec's own scenario path. -/
theorem C2_backtrace_route_shape_witness :
    ("B" : String) ∈ ["warehouse", "A", "B", "C"] ∧
    MeshSimulator.backtrace_route_of ["warehouse", "A", "B", "C"] "B"
      = ((["warehouse", "A", "B", "C"] : List String).drop
          ((["warehouse", "A", "B", "C"] : List String).indexOf "B")).reverse :=
  ⟨by decide, ((C2_backtrace_route_shape ["warehouse", "A", "B", "C"] "B").1 (by decide)).1⟩

/-- C4: whenever the capacity gate passes and the base cost is feasible
(strictly below `VERY_HIGH_BID`), `compute_bid` returns
`base_cost * priority_mult * capacity_penalty * time_penalty` clamped to at
most `VERY_HIGH_BID`, where the three factors are exactly the piecewise
formulas the spec gives (`specPriorityMult`, `specCapacityPenalty`,
`specTimePenalty`). -/
theorem C4_compute_bid_formula (a : AgentState) (ti : TaskInfo) (ni : NetworkInfo)
    (hcap : VehicleAgent.has_capacity a (ti.weight.getD 0) = true)
    (hbase : VehicleAgent.calculate_base_cost (ni.current_edge.getD "warehouse")
        (ti.delivery.getD "") < VERY_HIGH_BID) :
    VehicleAgent.compute_bid a ti ni =
      min (VehicleAgent.calculate_base_cost (ni.current_edge.getD "warehouse")
              (ti.delivery.getD "")
            * specPriorityMult (ti.weight.getD 0)
            * specCapacityPenalty a.capacity a.load
            * specTimePenalty ti.due_by (ni.current_time.getD 0)
                (VehicleAgent.calculate_base_cost (ni.current_edge.getD "warehouse")
                  (ti.delivery.getD "")))
          VERY_HIGH_BID := by
  unfold VehicleAgent.compute_bid
  have hnb : ¬(VehicleAgent.calculate_base_cost (ni.current_edge.getD "warehouse")
      (ti.delivery.getD "") ≥ VERY_HIGH_BID) := not_le.2 hbase
  simp only [hcap, Bool.not_true, Bool.false_eq_true, if_false, if_neg hnb,
    priority_mult_eq_spec, capacity_penalty_eq_spec, time_penalty_eq_spec]

/-- Witness for C4: vehicle `B` (capacity 10, load 2), task weight 3 with
`due_by = 150` at time 0; the clamped product evaluates on both sides. -/
theorem C4_compute_bid_formula_witness :
    VehicleAgent.has_capacity agentB 3 = true ∧
    VehicleAgent.calculate_base_cost "warehouse" "d" < VERY_HIGH_BID ∧
    VehicleAgent.compute_bid agentB
        { task_id := some "T1", delivery := some "d", weight := some 3, due_by := some 150 }
        { current_time := some 0 } =
      min (VehicleAgent.calculate_base_cost "warehouse" "d"
            * specPriorityMult 3 * specCapacityPenalty agentB.capacity agentB.load
            * specTimePenalty (some 150) 0 (VehicleAgent.calculate_base_cost "warehouse" "d"))
          VERY_HIGH_BID := by
  refine ⟨by norm_num [VehicleAgent.has_capacity, agentB],
    by norm_num [VehicleAgent.calculate_base_cost, VERY_HIGH_BID], ?_⟩
  exact C4_compute_bid_formula agentB
    { task_id := some "T1", delivery := some "d", weight := some 3, due_by := some 150 }
    { current_time := some 0 } (by norm_num [VehicleAgent.has_capacity, agentB])
    (by norm_num [VehicleAgent.calculate_base_cost, VERY_HIGH_BID])

/-- C5: an agent whose `load + task.weight` exceeds its `capacity` bids
`VERY_HIGH_BID` (for any task dict with that weight and any network info),
and in the forward-announcement handler such an agent leaves the message's
`best` record unchanged whenever the running best is at most
`VERY_HIGH_BID` (which it is from initialization onward): the strict `<`
comparison never lets the infeasible bid take the holder slot. -/
theorem C5_capacity_gate_never_holder (a : AgentState) (msg : Msg) (t : ℚ)
    (hinf : a.capacity < a.load + msg.weight.getD 0)
    (hb : (msg.best.getD { bid := VERY_HIGH_BID, holder := none }).bid ≤ VERY_HIGH_BID) :
    (∀ (ti : TaskInfo) (ni : NetworkInfo), ti.weight.getD 0 = msg.weight.getD 0 →
      VehicleAgent.compute_bid a ti ni = VERY_HIGH_BID) ∧
    (VehicleAgent.handle_forward_announcement a msg t).best =
      some (msg.best.getD { bid := VERY_HIGH_BID, holder := none }) := by
  constructor
  · intro ti ni hw
    exact compute_bid_infeasible a ti ni (by rw [hw]; exact hinf)
  · have hbid : VehicleAgent.forward_bid a msg t = VERY_HIGH_BID :=
      compute_bid_infeasible a _ _ (by simpa using hinf)
    unfold VehicleAgent.handle_forward_announcement
    have hnlt : ¬(VERY_HIGH_BID < (msg.best.getD { bid := VERY_HIGH_BID, holder := none }).bid) :=
      not_lt.2 hb
    simp [hbid, hnlt]

/-- Witness for C5: vehicle `B` (capacity 10, load 2) facing a task of
weight 9, with a feasible running best of 200 held by `A`. -/
theorem C5_capacity_gate_never_holder_witness :
    agentB.capacity < agentB.load + (9 : ℚ) ∧
    (200 : ℚ) ≤ VERY_HIGH_BID ∧
    (VehicleAgent.handle_forward_announcement agentB
        { message_type := some "FORWARD_ANNOUNCEMENT", task_id := some "T2",
          weight := some 9, path := some ["warehouse", "A"],
          best := some { bid := 200, holder := some "A" } } 0).best =
      some { bid := 200, holder := some "A" } := by
  refine ⟨by norm_num [agentB], by norm_num [VERY_HIGH_BID], ?_⟩
  exact (C5_capacity_gate_never_holder agentB
    { message_type := some "FORWARD_ANNOUNCEMENT", task_id := some "T2",
      weight := some 9, path := some ["warehouse", "A"],
      best := some { bid := 200, holder := some "A" } } 0
    (by norm_num [agentB]) (by norm_num [VERY_HIGH_BID])).2

/-- C6: per hop of a task's traversal, the agent handler replaces `best`
with `{bid, holder := its id}` exactly when its computed bid is strictly
below the incoming `best.bid`; on an equal (or worse) bid the incumbent
`best` is kept unchanged, so `best.bid` never increases hop over hop (the
fabric's own forwarding step copies `best` verbatim). -/
theorem C6_monotone_best (a : AgentState) (msg : Msg) (t : ℚ) :
    ((VehicleAgent.handle_forward_announcement a msg t).best.getD
        { bid := VERY_HIGH_BID, holder := none }).bid
      ≤ (msg.best.getD { bid := VERY_HIGH_BID, holder := none }).bid ∧
    (VehicleAgent.forward_bid a msg t
        < (msg.best.getD { bid := VERY_HIGH_BID, holder := none }).bid →
      (VehicleAgent.handle_forward_announcement a msg t).best =
        some { bid := VehicleAgent.forward_bid a msg t, holder := some a.id }) ∧
    ((msg.best.getD { bid := VERY_HIGH_BID, holder := none }).bid
        ≤ VehicleAgent.forward_bid a msg t →
      (VehicleAgent.handle_forward_announcement a msg t).best =
        some (msg.best.getD { bid := VERY_HIGH_BID, holder := none })) := by
  unfold VehicleAgent.handle_forward_announcement
  by_cases h : VehicleAgent.forward_bid a msg t
      < (msg.best.getD { bid := VERY_HIGH_BID, holder := none }).bid
  · refine ⟨?_, ?_, ?_⟩
    · simp only [h, if_pos h]
      simp [le_of_lt h]
    · intro _
      simp [h]
    · intro h2
      exact absurd h (not_lt.2 h2)
  · refine ⟨?_, ?_, ?_⟩
    · simp [h]
    · intro h2
      exact absurd h2 h
    · intro _
      simp [h]

/-- Witness for C6: agent `A` (empty, capacity 10) computes bid 150 for a
weightless task; against a running best of 100 it keeps the incumbent. -/
theorem C6_monotone_best_witness :
    (100 : ℚ) ≤ VehicleAgent.forward_bid agentA
      { message_type := some "FORWARD_ANNOUNCEMENT", task_id := some "T3",
        path := some ["warehouse", "B"],
        best := some { bid := 100, holder := some "B" } } 0 ∧
    (VehicleAgent.handle_forward_announcement agentA
        { message_type := some "FORWARD_ANNOUNCEMENT", task_id := some "T3",
          path := some ["warehouse", "B"],
          best := some { bid := 100, holder := some "B" } } 0).best =
      some { bid := 100, holder := some "B" } := by
  have hbid : VehicleAgent.forward_bid agentA
      { message_type := some "FORWARD_ANNOUNCEMENT", task_id := some "T3",
        path := some ["warehouse", "B"],
        best := some { bid := 100, holder := some "B" } } 0 = 150 := by
    norm_num [VehicleAgent.forward_bid, VehicleAgent.compute_bid,
      VehicleAgent.has_capacity, VehicleAgent.calculate_base_cost,
      VehicleAgent.calculate_priority_multiplier, VehicleAgent.calculate_capacity_penalty,
      VehicleAgent.calculate_time_penalty, VERY_HIGH_BID, agentA]
  refine ⟨by rw [hbid]; norm_num, ?_⟩
  exact (C6_monotone_best agentA
    { message_type := some "FORWARD_ANNOUNCEMENT", task_id := some "T3",
      path := some ["warehouse", "B"],
      best := some { bid := 100, holder := some "B" } } 0).2.2
    (by rw [hbid]; norm_num)

/-- C9: handling a `WinnerDecision` appends `(task_id, delivery)` only when
the agent is the named winner and no entry with that `task_id` exists;
handling the same decision twice equals handling it once; and after any
winning delivery to a state whose `assigned_tasks` is unique by `task_id`,
exactly one entry with that `task_id` is present. -/
theorem C9_idempotent_assignment (a : AgentState) (msg : Msg) :
    (keysUnique a.assigned_tasks →
      keysUnique (VehicleAgent.handle_winner_decision a msg).assigned_tasks) ∧
    VehicleAgent.handle_winner_decision (VehicleAgent.handle_winner_decision a msg) msg =
      VehicleAgent.handle_winner_decision a msg ∧
    (msg.winner.getD "" = a.id → keysUnique a.assigned_tasks →
      ((VehicleAgent.handle_winner_decision a msg).assigned_tasks.filter
          (fun p => p.1 == msg.task_id.getD "")).length = 1) := by
  unfold VehicleAgent.handle_winner_decision
  by_cases hw : msg.winner.getD "" = a.id
  · by_cases hany : a.assigned_tasks.any (fun p => p.1 == msg.task_id.getD "") = true
    · simp only [hw, beq_self_eq_true, if_pos, hany, if_true]
      refine ⟨fun h => h, by simp [hany], ?_⟩
      intro _ hu
      exact filter_key_length_of_unique _ _ hu hany
    · have hnotany : a.assigned_tasks.any (fun p => p.1 == msg.task_id.getD "") = false :=
        Bool.eq_false_iff.mpr hany
      have hall := List.any_eq_false.mp hnotany
      have hnotkey : msg.task_id.getD "" ∉ a.assigned_tasks.map Prod.fst := by
        intro hmem
        obtain ⟨p, hp, hpk⟩ := List.mem_map.mp hmem
        exact hall p hp (by simp [hpk])
      simp only [hw, beq_self_eq_true, if_pos, hnotany, Bool.false_eq_true, if_false]
      refine ⟨?_, ?_, ?_⟩
      · intro hu
        unfold keysUnique at hu ⊢
        simp only [List.map_append, List.map_cons, List.map_nil]
        rw [List.nodup_append]
        exact ⟨hu, List.nodup_singleton _, by simpa using hnotkey⟩
      · have : (a.assigned_tasks ++ [(msg.task_id.getD "", msg.delivery.getD "")]).any
            (fun p => p.1 == msg.task_id.getD "") = true := by
          simp [List.any_append]
        simp [this]
      · intro _ _
        rw [List.filter_append]
        have hfilnil : a.assigned_tasks.filter (fun p => p.1 == msg.task_id.getD "") = [] := by
          rw [List.filter_eq_nil_iff]
          intro p hp hpk
          exact hnotkey (List.mem_map.mpr ⟨p, hp, beq_iff_eq.mp hpk⟩)
        rw [hfilnil]
        simp
  · have hbeq : (msg.winner.getD "" == a.id) = false := by
      simpa using hw
    simp only [hbeq, Bool.false_eq_true, if_false]
    exact ⟨fun h => h, by simp, fun h _ => absurd h hw⟩

/-- Agent `A` already holding task `T1`, for the C9 evaluation. -/
def agentA1 : AgentState := { agentA with assigned_tasks := [("T1", "d")] }

/-- Duplicate winner decision for task `T1`, for the C9 evaluation. -/
def winMsgT1 : Msg :=
  { message_type := some "WINNER_DECISION", task_id := some "T1",
    winner := some "A", delivery := some "d" }

theorem backtrace_route_singleton (path : List String) (w : String)
    (hnd : path.Nodup) (hmem : w ∈ path) (hlast : path.getLast? = some w) :
    MeshSimulator.backtrace_route_of path w = [w] := by
  obtain ⟨ys, hys⟩ := List.getLast?_eq_some_iff.mp hlast
  subst hys
  have hwys : w ∉ ys := by
    rw [List.nodup_append] at hnd
    intro hmem'
    exact hnd.2.2 hmem' (by simp)
  have hcontains : (ys ++ [w]).contains w = true := (contains_eq_true_iff _ _).2 hmem
  unfold MeshSimulator.backtrace_route_of
  rw [if_pos hcontains, List.indexOf_append_of_not_mem hwys, List.indexOf_cons_self]
  simp [List.drop_left]

theorem backtrace_tail_count (path : List String) (w : String)
    (hnd : path.Nodup) (hmem : w ∈ path) (hlast : path.getLast? ≠ some w) :
    ((MeshSimulator.backtrace_route_of path w).tail).count w = 1 := by
  have hidx : path.indexOf w < path.length := List.indexOf_lt_length.2 hmem
  have hdrop : path.drop (path.indexOf w) = w :: path.drop (path.indexOf w + 1) := by
    rw [List.drop_eq_getElem_cons hidx, List.getElem_indexOf hidx]
  have hnd' : (path.drop (path.indexOf w)).Nodup := hnd.sublist (List.drop_sublist _ _)
  rw [hdrop] at hnd'
  have hwrest : w ∉ path.drop (path.indexOf w + 1) := (List.nodup_cons.mp hnd').1
  have hrest_ne : path.drop (path.indexOf w + 1) ≠ [] := by
    intro he
    apply hlast
    have hsplit := List.take_append_drop (path.indexOf w) path
    rw [hdrop, he] at hsplit
    rw [← hsplit]
    simp
  have hcontains : path.contains w = true := (contains_eq_true_iff _ _).2 hmem
  unfold MeshSimulator.backtrace_route_of
  rw [if_pos hcontains, hdrop, List.reverse_cons,
    List.tail_append_of_ne_nil (by simpa using hrest_ne), List.count_append]
  have hzero : (path.drop (path.indexOf w + 1)).reverse.tail.count w = 0 := by
    rw [List.count_eq_zero]
    intro hmem'
    have hmem2 := (List.tail_sublist ((path.drop (path.indexOf w + 1)).reverse)).subset hmem'
    exact hwrest (List.mem_reverse.mp hmem2)
  rw [hzero]
  simp

theorem start_backtrace_eq_deliverAlong (st : MeshState) (msg : Msg) (w : String)
    (hw : (msg.best.getD { bid := VERY_HIGH_BID, holder := none }).holder = some w)
    (hwne : w ≠ "") :
    MeshSimulator.start_backtrace st msg =
      MeshSimulator.deliverAlong st
        ((MeshSimulator.backtrace_route_of (msg.path.getD []) w).tail)
        { message_type := some "WINNER_DECISION", task_id := msg.task_id,
          winner := some w, pickup := msg.pickup, delivery := msg.delivery,
          weight := msg.weight,
          best := some (msg.best.getD { bid := VERY_HIGH_BID, holder := none }),
          backtrace_route := some (MeshSimulator.backtrace_route_of (msg.path.getD []) w) } := by
  unfold MeshSimulator.start_backtrace
  simp only [hw]
  simp [truthyStr, hwne]

/-- Completed forward announcement whose holder is the last path entry,
used to refute C1. -/
def doneMsgHolderLast : Msg :=
  { message_type := some "FORWARD_ANNOUNCEMENT", task_id := some "T1",
    pickup := some "p", delivery := some "d", weight := some 3,
    path := some ["warehouse", "A"], best := some { bid := 100, holder := some "A" } }

/-- C1 counterexample: on the one-vehicle ring the traversal of
`doneMsgHolderLast` is complete (`find_next_in_ring` has no candidate) and
`best.holder = "A"` is present — the claim then demands one `WinnerDecision`
delivered to `A` even though the holder is the last path entry — but the
fabric's handler returns the state unchanged: `A`'s inbox gains no
`WinnerDecision` at all. -/
theorem C1_cex_holder_last_undelivered :
    MeshSimulator.find_next_in_ring meshA.ring "A" (doneMsgHolderLast.path.getD []) = none ∧
    (doneMsgHolderLast.best.getD { bid := VERY_HIGH_BID, holder := none }).holder = some "A" ∧
    MeshSimulator.handle_forward_announcement meshA "A" doneMsgHolderLast = meshA ∧
    countWD (MeshSimulator.handle_forward_announcement meshA "A" doneMsgHolderLast) "A" = 0 :=
  ⟨rfl, rfl, rfl, rfl⟩

/-- C1 corrected: given a completed traversal's final message, (i) if
`best.holder` is absent (or the empty string, which Python treats as
falsy), the backtrace produces nothing and the state is unchanged; (ii) if
the holder is present but is the LAST entry of the path, the single-entry
backtrace route has no subsequent receiver, so again nothing is delivered
and the state is unchanged; (iii) only when the holder is present and at a
non-last position of the (duplicate-free) path does the winner's inbox
gain exactly one `WinnerDecision`. -/
theorem C1_winner_delivery (st : MeshState) (msg : Msg) (path : List String)
    (hpath : msg.path.getD [] = path) :
    ((msg.best.getD { bid := VERY_HIGH_BID, holder := none }).holder = none →
      MeshSimulator.start_backtrace st msg = st) ∧
    (∀ w, (msg.best.getD { bid := VERY_HIGH_BID, holder := none }).holder = some w →
      w = "" → MeshSimulator.start_backtrace st msg = st) ∧
    (∀ w, (msg.best.getD { bid := VERY_HIGH_BID, holder := none }).holder = some w →
      w ≠ "" → path.Nodup → w ∈ path → path.getLast? = some w →
      MeshSimulator.start_backtrace st msg = st) ∧
    (∀ w, (msg.best.getD { bid := VERY_HIGH_BID, holder := none }).holder = some w →
      w ≠ "" → path.Nodup → w ∈ path → path.getLast? ≠ some w →
      (lookupAgent st.agents w).isSome = true →
      countWD (MeshSimulator.start_backtrace st msg) w = countWD st w + 1) := by
  refine ⟨?_, ?_, ?_, ?_⟩
  · intro hw
    unfold MeshSimulator.start_backtrace
    simp only [hw]
    simp [truthyStr]
  · intro w hw hwe
    subst hwe
    unfold MeshSimulator.start_backtrace
    simp only [hw]
    simp [truthyStr]
  · intro w hw hwne hnd hmem hlast
    rw [start_backtrace_eq_deliverAlong st msg w hw hwne, hpath,
      backtrace_route_singleton path w hnd hmem hlast]
    rfl
  · intro w hw hwne hnd hmem hlast hag
    rw [start_backtrace_eq_deliverAlong st msg w hw hwne, hpath,
      countWD_deliverAlong _ st _ w rfl hag,
      backtrace_tail_count path w hnd hmem hlast]

/-- Witness for C1 corrected: ring `[A, B]`, completed path
`[warehouse, A, B]` with holder `A` (not last): `A`'s inbox gains exactly
one `WinnerDecision`. -/
theorem C1_winner_delivery_witness :
    countWD (MeshSimulator.start_backtrace meshAB
      { message_type := some "FORWARD_ANNOUNCEMENT", task_id := some "T1",
        pickup := some "p", delivery := some "d", weight := some 3,
        path := some ["warehouse", "A", "B"],
        best := some { bid := 100, holder := some "A" } }) "A" =
      countWD meshAB "A" + 1 :=
  (C1_winner_delivery meshAB
    { message_type := some "FORWARD_ANNOUNCEMENT", task_id := some "T1",
      pickup := some "p", delivery := some "d", weight := some 3,
      path := some ["warehouse", "A", "B"],
      best := some { bid := 100, holder := some "A" } }
    ["warehouse", "A", "B"] rfl).2.2.2 "A" rfl (by decide) (by decide) (by decide)
    (by decide) (by decide)

/-- Start-of-day announcement used for the C7 evaluation. -/
def sodMsg7 : Msg :=
  { message_type := some "TASK_ANNOUNCEMENT", task_id := some "SOD-7",
    pickup := some "p", delivery := some "d", weight := some 3 }

/-- C7: a warehouse `TASK_ANNOUNCEMENT` whose `task_id` carries the `"SOD-"`
prefix is resolved immediately by round-robin over a non-empty ring: the
winner is `ring[index mod len(ring)]`, the index becomes `index + 1`, and a
`WinnerDecision` with `best = {bid: 0.0, holder: winner}` is delivered
directly to that agent's inbox — no other field of the fabric state changes
and no `ForwardAnnouncement` traversal is seeded. -/
theorem C7_sod_round_robin (st : MeshState) (msg : Msg) (t : ℚ)
    (hring : st.ring ≠ [])
    (hmt : msg.message_type = some "TASK_ANNOUNCEMENT")
    (hsod : MeshSimulator.startsWithPy (msg.task_id.getD "") "SOD-" = true)
    (hw : (lookupAgent st.agents
        (st.ring.getD (st.sod_assign_index % st.ring.length) "")).isSome = true) :
    MeshSimulator.process_message st "warehouse" msg t =
      { st with
        sod_assign_index := st.sod_assign_index + 1,
        agents := updateAgent st.agents
          (st.ring.getD (st.sod_assign_index % st.ring.length) "")
          (fun a => VehicleAgent.receive a
            { message_type := some "WINNER_DECISION", task_id := msg.task_id,
              winner := some (st.ring.getD (st.sod_assign_index % st.ring.length) ""),
              pickup := msg.pickup, delivery := msg.delivery, weight := msg.weight,
              best := some { bid := 0, holder := some (st.ring.getD (st.sod_assign_index % st.ring.length) "") } }) } := by
  obtain ⟨ags, ring, queue, idx, cr⟩ := st
  unfold MeshSimulator.process_message
  rw [if_pos ⟨hmt, rfl⟩]
  unfold MeshSimulator.handle_warehouse_announcement
  rw [if_pos hsod]
  unfold MeshSimulator.assign_sod_task
  cases ring with
  | nil => exact absurd rfl hring
  | cons f rest =>
    simp only []
    unfold MeshSimulator.deliverTo
    simp only at hw
    rw [if_pos hw]

/-- Witness for C7: the spec scenario — task `"SOD-7"`, ring `[A, B]`,
`sod_assign_index = 1`: the winner is `B` and the index becomes `2`. -/
theorem C7_sod_round_robin_witness :
    meshAB.ring.getD (meshAB.sod_assign_index % meshAB.ring.length) "" = "B" ∧
    meshAB.sod_assign_index + 1 = 2 ∧
    MeshSimulator.process_message meshAB "warehouse" sodMsg7 0 =
      { meshAB with
        sod_assign_index := meshAB.sod_assign_index + 1,
        agents := updateAgent meshAB.agents
          (meshAB.ring.getD (meshAB.sod_assign_index % meshAB.ring.length) "")
          (fun a => VehicleAgent.receive a
            { message_type := some "WINNER_DECISION", task_id := sodMsg7.task_id,
              winner := some (meshAB.ring.getD
                (meshAB.sod_assign_index % meshAB.ring.length) ""),
              pickup := sodMsg7.pickup, delivery := sodMsg7.delivery,
              weight := sodMsg7.weight,
              best := some { bid := 0, holder := some (meshAB.ring.getD (meshAB.sod_assign_index % meshAB.ring.length) "") } }) } :=
  ⟨by decide, by decide,
    C7_sod_round_robin meshAB sodMsg7 0 (by decide) rfl (by decide) (by decide)⟩

/-- Witness for C9: agent `A` already holds task `T1`; a duplicate
`WinnerDecision` for `T1` leaves exactly one entry for `T1`. -/
theorem C9_idempotent_assignment_witness :
    keysUnique agentA1.assigned_tasks ∧
    winMsgT1.winner.getD "" = agentA1.id ∧
    ((VehicleAgent.handle_winner_decision agentA1 winMsgT1).assigned_tasks.filter
        (fun p => p.1 == winMsgT1.task_id.getD "")).length = 1 := by
  refine ⟨by simp [keysUnique, agentA1], by simp [winMsgT1, agentA1, agentA], ?_⟩
  exact (C9_idempotent_assignment agentA1 winMsgT1).2.2
    (by simp [winMsgT1, agentA1, agentA]) (by simp [keysUnique, agentA1])

theorem scanRing_some (ring path : List String) (idx : Nat) (offs : List Nat)
    (hr : ring ≠ []) (c : String)
    (h : MeshSimulator.scanRing ring path idx offs = some c) :
    c ∈ ring ∧ path.contains c = false := by
  induction offs with
  | nil => exact absurd h (by simp [MeshSimulator.scanRing])
  | cons o rest ih =>
    unfold MeshSimulator.scanRing at h
    by_cases hc : path.contains (ring.getD ((idx + o) % ring.length) "") = true
    · rw [if_pos hc] at h
      exact ih h
    · rw [if_neg hc] at h
      have hcc : ring.getD ((idx + o) % ring.length) "" = c := Option.some.inj h
      have hlen : 0 < ring.length := List.length_pos.2 hr
      have hlt : (idx + o) % ring.length < ring.length := Nat.mod_lt _ hlen
      constructor
      · rw [← hcc, List.getD_eq_getElem ring "" hlt]
        exact List.getElem_mem hlt
      · rw [← hcc]
        exact Bool.eq_false_iff.mpr hc

theorem find_next_in_ring_some (ring : List String) (cur : String) (path : List String)
    (c : String) (h : MeshSimulator.find_next_in_ring ring cur path = some c) :
    c ∈ ring ∧ c ∉ path := by
  unfold MeshSimulator.find_next_in_ring at h
  by_cases hcw : (cur == "warehouse") = true
  · rw [if_pos hcw] at h
    have hp := List.find?_some h
    have hm := List.mem_of_find?_eq_some h
    refine ⟨hm, fun hmem => ?_⟩
    rw [(contains_eq_true_iff path c).2 hmem] at hp
    exact Bool.false_ne_true (by simpa using hp)
  · rw [if_neg hcw] at h
    by_cases hrc : ring.contains cur = true
    · have hr : ring ≠ [] := by
        intro he
        subst he
        simp [List.contains_eq_any_beq] at hrc
      rw [hrc] at h
      simp only [Bool.not_true, Bool.false_eq_true, if_false] at h
      obtain ⟨hmem, hcon⟩ := scanRing_some ring path _ _ hr c h
      refine ⟨hmem, fun hm => ?_⟩
      rw [(contains_eq_true_iff _ _).2 hm] at hcon
      exact Bool.noConfusion hcon
    · have hrc' : ring.contains cur = false := Bool.eq_false_iff.mpr hrc
      rw [hrc'] at h
      simp at h

/-- C8: the ring-coverage invariant `ForwardInv` (duplicate-free path whose
entries are the warehouse sentinel or ring members, holder always a ring
member).  (i) any next hop the fabric selects is a ring member not yet in
the path; (ii) the fabric's seed message satisfies the invariant; (iii) an
agent's forward handler preserves it (the agent appends its own id only if
absent); (iv) the fabric's path extension preserves it; (v) under the
invariant any recorded holder — hence any eventual winner of a non-SOD
task — is a ring member. -/
theorem C8_ring_coverage (ring : List String) (hwh : "warehouse" ∉ ring) :
    (∀ cur path c, MeshSimulator.find_next_in_ring ring cur path = some c →
      c ∈ ring ∧ c ∉ path) ∧
    (∀ (msg : Msg) (f : String) (rest : List String), ring = f :: rest →
      ForwardInv ring (MeshSimulator.seed_forward_msg msg f)) ∧
    (∀ (a : AgentState) (msg : Msg) (t : ℚ), a.id ∈ ring → ForwardInv ring msg →
      ForwardInv ring (VehicleAgent.handle_forward_announcement a msg t)) ∧
    (∀ (msg : Msg) (cur c : String), ForwardInv ring msg →
      MeshSimulator.find_next_in_ring ring cur (msg.path.getD []) = some c →
      ForwardInv ring { msg with path := some (msg.path.getD [] ++ [c]) }) ∧
    (∀ (msg : Msg) (w : String), ForwardInv ring msg →
      (msg.best.getD { bid := VERY_HIGH_BID, holder := none }).holder = some w →
      w ∈ ring) := by
  refine ⟨find_next_in_ring_some ring, ?_, ?_, ?_, ?_⟩
  · intro msg f rest hring
    have hf : f ∈ ring := by rw [hring]; exact List.mem_cons_self f rest
    have hfw : f ≠ "warehouse" := fun he => hwh (he ▸ hf)
    refine ⟨⟨?_, ?_⟩, ?_⟩
    · simp [MeshSimulator.seed_forward_msg, List.nodup_cons, hfw.symm]
    · intro x hx
      simp only [MeshSimulator.seed_forward_msg, Option.getD_some, List.cons_append,
        List.nil_append, List.mem_cons, List.not_mem_nil, or_false] at hx
      rcases hx with hx | hx
      · exact Or.inl hx
      · exact Or.inr (hx ▸ hf)
    · intro w hwd
      simp [MeshSimulator.seed_forward_msg] at hwd
  · intro a msg t ha hinv
    obtain ⟨⟨hnd, hmem⟩, hhold⟩ := hinv
    unfold VehicleAgent.handle_forward_announcement
    by_cases hcon : (msg.path.getD []).contains a.id = true
    · constructor
      · simp only [hcon, if_true, Option.getD_some]
        exact ⟨hnd, hmem⟩
      · intro w hwd
        simp only [Option.getD_some] at hwd
        by_cases hlt : VehicleAgent.forward_bid a msg t
            < (msg.best.getD { bid := VERY_HIGH_BID, holder := none }).bid
        · rw [if_pos hlt] at hwd
          simp at hwd
          exact hwd ▸ ha
        · rw [if_neg hlt] at hwd
          exact hhold w hwd
    · have hnm : a.id ∉ msg.path.getD [] := fun hm =>
        hcon ((contains_eq_true_iff _ _).2 hm)
      constructor
      · simp only [hcon, Bool.false_eq_true, if_false, Option.getD_some]
        constructor
        · exact List.Nodup.append hnd (List.nodup_singleton _) (by simpa using hnm)
        · intro x hx
          rcases List.mem_append.mp hx with hx | hx
          · exact hmem x hx
          · simp at hx
            exact Or.inr (hx ▸ ha)
      · intro w hwd
        simp only [Option.getD_some] at hwd
        by_cases hlt : VehicleAgent.forward_bid a msg t
            < (msg.best.getD { bid := VERY_HIGH_BID, holder := none }).bid
        · rw [if_pos hlt] at hwd
          simp at hwd
          exact hwd ▸ ha
        · rw [if_neg hlt] at hwd
          exact hhold w hwd
  · intro msg cur c hinv hfind
    obtain ⟨⟨hnd, hmem⟩, hhold⟩ := hinv
    obtain ⟨hcr, hcp⟩ := find_next_in_ring_some ring cur (msg.path.getD []) c hfind
    refine ⟨⟨?_, ?_⟩, ?_⟩
    · simp only [Option.getD_some]
      exact List.Nodup.append hnd (List.nodup_singleton _) (by simpa using hcp)
    · intro x hx
      simp only [Option.getD_some] at hx
      rcases List.mem_append.mp hx with hx | hx
      · exact hmem x hx
      · simp at hx
        exact Or.inr (hx ▸ hcr)
    · intro w hwd
      simp only at hwd
      exact hhold w hwd
  · intro msg w hinv hwd
    exact hinv.2 w hwd

/-- Witness for C8 at the concrete ring `[A, B]`. -/
theorem C8_ring_coverage_witness :
    ("warehouse" : String) ∉ (["A", "B"] : List String) ∧
    (∀ (msg : Msg) (w : String), ForwardInv ["A", "B"] msg →
      (msg.best.getD { bid := VERY_HIGH_BID, holder := none }).holder = some w →
      w ∈ (["A", "B"] : List String)) :=
  ⟨by decide, (C8_ring_coverage ["A", "B"] (by decide)).2.2.2.2⟩

end VTS
